import Mathlib

/-!
Verification of the `lambda-with-event-bridge` planning-portal scraper.

This file shallowly embeds the Rust sources (`src/web_scraper.rs`,
`src/mongo.rs`, `src/s3upload.rs`, `src/main.rs`) in Lean 4 and proves or
refutes the specification claims about them.

Modelling conventions:
* Fallible Rust code (`Result`, the `?` operator) is embedded with the
  `ROut` type below, which distinguishes a returned `Err` (caught by the
  `match` arms in `process`) from a Rust panic (which unwinds past every
  `match` and kills the process).
* Network, S3 and MongoDB effects are replaced by explicit deterministic
  oracles / explicit state threading.
* Rust `String` operations are modelled with Lean `String`; `to_lowercase`
  is modelled ASCII-only by `Char.toLower`, which is faithful for every
  string these claims mention.
-/

/-- Outcome of a fallible Rust computation: a normal value, a returned
`Err` (observable by the caller's `match`), or a panic (which no `match`
arm in this code base catches). -/
inductive ROut (α : Type) where
  | ok (a : α)
  | err (e : String)
  | panicked (msg : String)
deriving DecidableEq, Repr

/-- The fixed jurisdiction tag `COUNTY` from `web_scraper.rs`. -/
def COUNTY : String := "Leeds"

/-- The fixed portal base URL `BASE_URL` from `web_scraper.rs`. -/
def BASE_URL : String := "https://publicaccess.leeds.gov.uk"

/-- The fixed actor id stamped into `created_by` / `updated_by`. -/
def actorId : String := "6539157ef8be4d62ea02ed6b"

/-- ASCII lower-casing, modelling Rust `str::to_lowercase` on the ASCII
strings relevant here. -/
def lowerStr (s : String) : String := String.mk (s.data.map Char.toLower)

/-- Whether the list `pre` is an initial segment of `l` (Boolean). -/
def isPrefixL : List Char → List Char → Bool
  | [], _ => true
  | _ :: _, [] => false
  | a :: as, b :: bs => a == b && isPrefixL as bs

/-- Whether `needle` occurs contiguously inside `hay` (Boolean),
modelling Rust `str::contains` for plain string patterns. -/
def containsL (needle : List Char) : List Char → Bool
  | [] => needle.isEmpty
  | h :: t => isPrefixL needle (h :: t) || containsL needle t

/-- String version of `containsL`, modelling Rust `str::contains`. -/
def containsSub (hay needle : String) : Bool := containsL needle.data hay.data

/-- Replace every non-overlapping occurrence of `pat` (non-empty) in the
list, left to right; `fuel` bounds the recursion and `length l` always
suffices because every step consumes at least one character. -/
def replaceLAux (pat rep : List Char) : Nat → List Char → List Char
  | 0, l => l
  | fuel + 1, l =>
    match l with
    | [] => []
    | h :: t =>
      if isPrefixL pat l && decide (0 < pat.length) then
        rep ++ replaceLAux pat rep fuel (l.drop pat.length)
      else h :: replaceLAux pat rep fuel t

/-- Model of Rust `str::replace(pat, rep)` for a non-empty pattern
(replaces every non-overlapping occurrence, left to right). -/
def strReplace (s pat rep : String) : String :=
  String.mk (replaceLAux pat.data rep.data s.data.length s.data)

/-- Drop leading and trailing whitespace, modelling Rust `str::trim`. -/
def trimStr (s : String) : String :=
  String.mk (((s.data.dropWhile Char.isWhitespace).reverse.dropWhile
    Char.isWhitespace).reverse)

/-- Split a string into its whitespace-separated words (accumulator holds
the current word reversed). -/
def wordsAux : List Char → List Char → List String
  | [], cur => if cur.isEmpty then [] else [String.mk cur.reverse]
  | c :: cs, cur =>
    if c.isWhitespace then
      if cur.isEmpty then wordsAux cs []
      else String.mk cur.reverse :: wordsAux cs []
    else wordsAux cs (c :: cur)

/-- Whitespace-separated words of a string. -/
def splitWords (s : String) : List String := wordsAux s.data []

/-- First-match lookup in a string-keyed association list.  This models
`HashMap::get`, `bson::Document::get_*` and the name tables below. -/
def alookup {β : Type} : List (String × β) → String → Option β
  | [], _ => none
  | (k, v) :: rest, key => if k = key then some v else alookup rest key

/-- Set a key in a string-keyed association list: overwrite the value at
an existing key, else append.  This models both repeated
`HashMap::insert` (during `collect`) and a MongoDB `$set` of one field. -/
def aset {β : Type} (m : List (String × β)) (key : String) (v : β) :
    List (String × β) :=
  if (alookup m key).isSome then
    m.map (fun p => if p.1 = key then (key, v) else p)
  else m ++ [(key, v)]

/-! ## Date parsing (`parse_date`, `web_scraper.rs` lines 30-35)

The Rust code calls `chrono::NaiveDate::parse_from_str(s, "%a %d %b %Y")`
and re-formats the result with `"%Y-%m-%d"`.  We model chrono's behaviour
on this fixed format string: four whitespace-separated tokens — a weekday
name (abbreviated or full, case-insensitive), a day of 1-2 digits, a month
name (abbreviated or full, case-insensitive) and a year — where chrono
additionally validates that the calendar date exists (month 1-12, day in
range for the month, year within chrono's `NaiveDate` range) and that the
named weekday agrees with the actual weekday of that date. -/

/-- Weekday names accepted by chrono `%a`, mapped to Sunday-based indices. -/
def weekdayTable : List (String × Nat) :=
  [("sun", 0), ("sunday", 0), ("mon", 1), ("monday", 1), ("tue", 2),
   ("tuesday", 2), ("wed", 3), ("wednesday", 3), ("thu", 4), ("thursday", 4),
   ("fri", 5), ("friday", 5), ("sat", 6), ("saturday", 6)]

/-- Month names accepted by chrono `%b`, mapped to month numbers. -/
def monthTable : List (String × Nat) :=
  [("jan", 1), ("january", 1), ("feb", 2), ("february", 2), ("mar", 3),
   ("march", 3), ("apr", 4), ("april", 4), ("may", 5), ("jun", 6),
   ("june", 6), ("jul", 7), ("july", 7), ("aug", 8), ("august", 8),
   ("sep", 9), ("september", 9), ("oct", 10), ("october", 10), ("nov", 11),
   ("november", 11), ("dec", 12), ("december", 12)]

/-- Value of a decimal digit character. -/
def digitVal (c : Char) : Option Nat :=
  if c.isDigit then some (c.toNat - 48) else none

/-- Parse a list of decimal digits into a number; `none` on a non-digit. -/
def digitsToNatAux : List Char → Nat → Option Nat
  | [], acc => some acc
  | c :: cs, acc =>
    match digitVal c with
    | none => none
    | some v => digitsToNatAux cs (acc * 10 + v)

/-- Parse a non-empty all-digit token. -/
def parseNatTok (s : String) : Option Nat :=
  if s.data.isEmpty then none else digitsToNatAux s.data 0

/-- Parse a day token: chrono `%d` consumes at most two digits. -/
def parseDayTok (s : String) : Option Nat :=
  if s.data.length ≤ 2 then parseNatTok s else none

/-- Leap-year test (proleptic Gregorian, as chrono uses). -/
def isLeap (y : Nat) : Bool :=
  (y % 4 == 0 && y % 100 != 0) || y % 400 == 0

/-- Number of days in a month. -/
def daysInMonth (y m : Nat) : Nat :=
  if m = 2 then (if isLeap y then 29 else 28)
  else if m = 4 ∨ m = 6 ∨ m = 9 ∨ m = 11 then 30
  else 31

/-- Sakamoto offsets for the day-of-week computation. -/
def sakamotoOffsets : List Int := [0, 3, 2, 5, 0, 3, 5, 1, 4, 6, 2, 4]

/-- Day of week of a Gregorian date, `0` = Sunday (Sakamoto's method). -/
def dayOfWeek (y m d : Nat) : Int :=
  let yy : Int := if m < 3 then (y : Int) - 1 else (y : Int)
  (yy + yy / 4 - yy / 100 + yy / 400 + sakamotoOffsets.getD (m - 1) 0 + (d : Int)) % 7

/-- Largest year representable by chrono's `NaiveDate`. -/
def MAX_CHRONO_YEAR : Nat := 262143

/-- A calendar date that chrono's `NaiveDate::from_ymd_opt` accepts. -/
def validDate (y m d : Nat) : Prop :=
  1 ≤ m ∧ m ≤ 12 ∧ 1 ≤ d ∧ d ≤ daysInMonth y m

instance (y m d : Nat) : Decidable (validDate y m d) := by
  unfold validDate; infer_instance

/-- Model of `chrono::NaiveDate::parse_from_str(s, "%a %d %b %Y")`:
tokenize on whitespace, parse the four fields, then apply chrono's
validation (date exists, weekday consistent with the date). -/
def parseWDMY (s : String) : Option (Nat × Nat × Nat) :=
  match splitWords s with
  | [wtok, dtok, mtok, ytok] =>
    match alookup weekdayTable (lowerStr wtok), parseDayTok dtok,
          alookup monthTable (lowerStr mtok), parseNatTok ytok with
    | some w, some d, some m, some y =>
      if validDate y m d ∧ y ≤ MAX_CHRONO_YEAR ∧ dayOfWeek y m d = Int.ofNat w
      then some (y, m, d) else none
    | _, _, _, _ => none
  | _ => none

/-- Decimal digits of a number (fuel-based, kernel-reducible). -/
def natToStrAux : Nat → Nat → List Char
  | 0, _ => []
  | fuel + 1, n =>
    if n < 10 then [Nat.digitChar n]
    else natToStrAux fuel (n / 10) ++ [Nat.digitChar (n % 10)]

/-- Decimal rendering of a number. -/
def natToStr (n : Nat) : String := String.mk (natToStrAux (n + 1) n)

/-- Zero-pad a decimal rendering to width `w`, as chrono's `%Y`/`%m`/`%d`
formatting does. -/
def padNat (w n : Nat) : String :=
  let s := natToStr n
  if s.data.length < w then
    String.mk (List.replicate (w - s.data.length) '0') ++ s
  else s

/-- ISO calendar-date rendering, modelling chrono formatting `"%Y-%m-%d"`. -/
def formatIso (y m d : Nat) : String :=
  padNat 4 y ++ "-" ++ padNat 2 m ++ "-" ++ padNat 2 d

/-- Model of `parse_date` (`web_scraper.rs` lines 30-35). -/
def parse_date (s : String) : Option String :=
  (parseWDMY s).map (fun t => formatIso t.1 t.2.1 t.2.2)

example : parse_date "Mon 03 Jun 2024" = some "2024-06-03" := by decide
example : parse_date "" = none := by decide
example : parse_date "Tue 03 Jun 2024" = none := by decide
example : parse_date "garbage" = none := by decide

/-! ## Document link classification (`extract_docs`, lines 356-414)

`extract_docs` zips the name, view-link and description cells of the
documents table and filters/classifies them.  We model one table row as
the `(name, description, link)` triple the zip produces, and the final
`collect::<HashMap<_, _>>()` as sequential insertion into an association
list in which a later insertion for the same key overwrites the earlier
value (exactly the `HashMap` collect semantics). -/

/-- One row of the documents table: the text of the name cell, the text of
the description cell, and the `href` of the view link. -/
structure DocRow where
  name : String
  description : String
  link : String
deriving DecidableEq, Repr

/-- Whether the row's name or description, trimmed and lower-cased,
contains the pattern — the repeated test of `extract_docs`. -/
def rowMentions (r : DocRow) (pat : String) : Bool :=
  containsSub (lowerStr (trimStr r.name)) pat ||
  containsSub (lowerStr (trimStr r.description)) pat

/-- First filter of `extract_docs`: the row mentions "decision" or
"application form". -/
def rowQualifies (r : DocRow) : Bool :=
  rowMentions r "decision" || rowMentions r "application form"

/-- Second filter of `extract_docs`: the trimmed view link is non-empty. -/
def rowLinkNonEmpty (r : DocRow) : Bool :=
  !(trimStr r.link).data.isEmpty

/-- Classification of a qualifying row (the `match` in `extract_docs`). -/
def classifyRow (r : DocRow) : String :=
  if rowMentions r "decision" then "decision_notice" else "application_form"

/-- The filter/classify/collect pipeline of `extract_docs` over the rows
of the documents table; the `collect::<HashMap<_, _>>()` is sequential
insertion in which a later row for the same key overwrites the earlier
one. -/
def collectDocs (rows : List DocRow) : List (String × String) :=
  ((rows.filter rowQualifies).filter rowLinkNonEmpty).foldl
    (fun m r => aset m (classifyRow r) (BASE_URL ++ r.link)) []

/-- Stated from the spec's words, for comparison with `collectDocs`: the
URL retained for a classification slot is the one of the last row in
document order that qualifies, has a non-empty link and classifies to
that slot. -/
def lastMatchUrl (rows : List DocRow) (slot : String) : Option String :=
  ((rows.filter (fun r =>
      rowQualifies r && (rowLinkNonEmpty r && (classifyRow r == slot)))).getLast?).map
    (fun r => BASE_URL ++ r.link)

/-- The documents-listing page as `extract_docs` observes it: the text of
the `div.addressCrumb > span.caseNumber` element when present, and the
rows of the documents table. -/
structure DocsPage where
  refSpan : Option String
  rows : List DocRow
deriving DecidableEq, Repr

/-- Model of `extract_docs` on a fetched documents page (lines 366-413).
When the reference-id element is missing, the code runs
`.ok_or("No reference id found").expect("No reference id found")`, which
is a panic, not a returned error. -/
def extract_docs (p : DocsPage) : ROut (String × List (String × String)) :=
  match p.refSpan with
  | none => ROut.panicked "No reference id found"
  | some s => ROut.ok (trimStr s, collectDocs p.rows)

example :
    collectDocs [⟨"Decision Notice", "", "/d1"⟩, ⟨"Site Plan", "", "/sp"⟩,
      ⟨"Full Application Form", "", "/af"⟩, ⟨"Decision notice v2", "", "/d2"⟩] =
      [("decision_notice", BASE_URL ++ "/d2"), ("application_form", BASE_URL ++ "/af")] := by
  decide

/-! ## Key/value table rows (`get_document`, lines 199-335)

Each row of the matched `simpleDetailsTable` fragments, the
`applicationDetails` table and the `agents` table is processed by taking
the first `th` and the first `td` of the row and panicking — via
`.expect("No th found")` / `.expect("No td found")` — when either is
absent.  A row is modelled by the text of those two cells, when present. -/

/-- One `tr` of a matched key/value table: text of its first `th` and of
its first `td`, each `none` when the row has no such cell. -/
structure KVRow where
  th : Option String
  td : Option String
deriving DecidableEq, Repr

/-- Label normalization applied to the `th` text: trim, lower-case,
replace spaces with underscores. -/
def normalizeKey (s : String) : String :=
  strReplace (lowerStr (trimStr s)) " " "_"

/-- Processing of a single table row inside `get_document`'s loops. -/
def extractRow (r : KVRow) : ROut (String × String) :=
  match r.th with
  | none => ROut.panicked "No th found"
  | some thTxt =>
    match r.td with
    | none => ROut.panicked "No td found"
    | some tdTxt => ROut.ok (normalizeKey thTxt, trimStr tdTxt)

/-- Processing of all rows of one matched table, in row order; a panic in
any row unwinds out of the loop. -/
def extractRows : List KVRow → ROut (List (String × String))
  | [] => ROut.ok []
  | r :: rs =>
    match extractRow r with
    | ROut.panicked m => ROut.panicked m
    | ROut.err e => ROut.err e
    | ROut.ok kv =>
      match extractRows rs with
      | ROut.panicked m => ROut.panicked m
      | ROut.err e => ROut.err e
      | ROut.ok kvs => ROut.ok (kv :: kvs)

example : normalizeKey "Application Validated" = "application_validated" := by decide
example : extractRows [⟨some "Status", some " Decided "⟩] =
    ROut.ok [("status", "Decided")] := by decide

/-! ## Pagination walker (`extract_links`, lines 56-179)

After the search-submission POSTs, `extract_links` parses the first
results page and then follows `a.next` links in a `while let` loop,
appending each page's `a.summaryLink` hrefs.  A fetched results page is
modelled by its case links and its optional next link; the portal is a
total function from page URL to page (one fetch = one lookup).  The loop
is embedded with explicit fuel: `walkPages ... fuel = some out` means the
loop finishes within `fuel` iterations, and a walk that returns `none`
for every fuel never terminates.  The source contains no repeated-link
detection and no error outcome in this loop, which the model reflects. -/

/-- One fetched results page: the extracted case links and the optional
`a.next` href. -/
structure ResultsPage where
  caseLinks : List String
  nextLink : Option String
deriving DecidableEq, Repr

/-- The `while let Some(page) = next_page` loop of `extract_links`,
accumulating case links; `fuel` bounds the number of iterations. -/
def walkPages (portal : String → ResultsPage) :
    Nat → Option String → List String → Option (List String)
  | _, none, acc => some acc
  | 0, some _, _ => none
  | fuel + 1, some url, acc =>
    walkPages portal fuel (portal url).nextLink (acc ++ (portal url).caseLinks)

/-- The paged phase of `extract_links`: start from the parsed first
results page, then run the while loop. -/
def extract_links_paged (portal : String → ResultsPage) (fuel : Nat)
    (first : ResultsPage) : Option (List String) :=
  walkPages portal fuel first.nextLink first.caseLinks

/-- Termination of the pagination loop from a given next-link cursor:
some amount of fuel suffices for the walk to finish. -/
def walkTerminates (portal : String → ResultsPage) (start : Option String) : Prop :=
  ∃ fuel out, walkPages portal fuel start [] = some out

/-- The cursor reached after following `n` next links. -/
def nextChain (portal : String → ResultsPage) : Option String → Nat → Option String
  | o, 0 => o
  | none, _ + 1 => none
  | some u, n + 1 => nextChain portal (portal u).nextLink n

/-- A portal page followed by a chain of further pages, each reached from
the previous one's next link; the final page has no next link. -/
def isChain (portal : String → ResultsPage) : ResultsPage → List ResultsPage → Prop
  | p, [] => p.nextLink = none
  | p, q :: qs => ∃ u, p.nextLink = some u ∧ portal u = q ∧ isChain portal q qs

/-- A portal whose every page points to page "pageA" as next: the
non-advancing cursor of claim C2. -/
def loopPortal : String → ResultsPage :=
  fun u => { caseLinks := [u ++ "-case"], nextLink := some "pageA" }


/-! ## BSON documents and the decided-pass update (`mongo.rs`, `process`)

`mongo::send_data(_, _, data, _, true)` runs
`collection.update_one(filter, data)` where `data` is the `$set` update
document built in `process` (lines 584-593).  A BSON document is modelled
as an association list (first occurrence wins on lookup, as in BSON), and
MongoDB's `$set` as setting each field of the `$set` sub-document in
turn. -/

/-- A BSON value: string, 64-bit integer, datetime, sub-document or
array. -/
inductive BVal where
  | vstr (s : String)
  | vint (n : Int)
  | vdate (t : Nat)
  | vdoc (fields : List (String × BVal))
  | varr (items : List BVal)

/-- Apply a MongoDB update document: set every field listed under its
`$set` key, in order. -/
def applyUpdate (target upd : List (String × BVal)) : List (String × BVal) :=
  match alookup upd "$set" with
  | some (BVal.vdoc kvs) => kvs.foldl (fun t p => aset t p.1 p.2) target
  | _ => target

/-- The `get_document(k).unwrap_or(&Document::new())` accessor used when
building the update: the named sub-document, or an empty one. -/
def getSubDoc (d : List (String × BVal)) (k : String) : BVal :=
  match alookup d k with
  | some (BVal.vdoc f) => BVal.vdoc f
  | _ => BVal.vdoc []

/-- The `get_array("documents").unwrap_or(&Array::new())` accessor: the
stored record's documents array, or an empty one. -/
def getDocsArray (d : List (String × BVal)) : List BVal :=
  match alookup d "documents" with
  | some (BVal.varr a) => a
  | _ => []

/-- The `$set` update document built in the decided pass (lines 584-593):
the freshly extracted record's `summary`, `further_information` and
`agent_details`, the stored documents with the uploaded decision notice
appended, and fresh `updated_at` / `updated_by` stamps. -/
def decidedUpdate (stored newDoc file : List (String × BVal)) (now : Nat) :
    List (String × BVal) :=
  [("$set", BVal.vdoc
    [("summary", getSubDoc newDoc "summary"),
     ("further_information", getSubDoc newDoc "further_information"),
     ("documents", BVal.varr (getDocsArray stored ++ [BVal.vdoc file])),
     ("agent_details", getSubDoc newDoc "agent_details"),
     ("updated_at", BVal.vdate now),
     ("updated_by", BVal.vstr actorId)])]

/-- The keys the decided-pass update touches. -/
def decidedUpdateKeys : List String :=
  ["summary", "further_information", "documents", "agent_details",
   "updated_at", "updated_by"]

/-- Effect on the stored record of issuing the decided-pass update. -/
def applyDecidedUpdate (stored newDoc file : List (String × BVal)) (now : Nat) :
    List (String × BVal) :=
  applyUpdate stored (decidedUpdate stored newDoc file now)

/-! ## Blob upload (`s3upload.rs`, `upload_file`)

`upload_file` reads `AWS_BUCKET_NAME` and `AWS_REGION` from the process
environment (via `env::var(..).unwrap()`, lines 41-42) on every call and
builds the returned descriptor from them.  The ambient environment is a
partial map from variable name to value; the randomly generated key, the
fetched size, the returned ETag/SSE and the success of the S3 put are
oracle parameters. -/

/-- Model of `upload_file`: the descriptor document it returns, as a
function of the ambient process environment and of the request's
outcome.  `env::var(..).unwrap()` panics when the variable is unset. -/
def upload_file (env : String → Option String) (fileType key : String)
    (fileSize : Int) (putOk : Bool) (etag sse : String) :
    ROut (List (String × BVal)) :=
  match env "AWS_BUCKET_NAME" with
  | none => ROut.panicked "called `Result::unwrap()` on an `Err` value"
  | some bucket =>
    match env "AWS_REGION" with
    | none => ROut.panicked "called `Result::unwrap()` on an `Err` value"
    | some region =>
      if !putOk then ROut.err "Error uploading file to S3"
      else
        ROut.ok
          [("type", BVal.vstr "pdf"),
           ("name", BVal.vstr key),
           ("size", BVal.vint fileSize),
           ("doc_type", BVal.vstr fileType),
           ("s3", BVal.vdoc
             [("Bucket", BVal.vstr bucket),
              ("key", BVal.vstr key),
              ("Key", BVal.vstr key),
              ("ETag", BVal.vstr etag),
              ("Location", BVal.vstr
                ("https://" ++ bucket ++ ".s3." ++ region ++ ".amazonaws.com/" ++ key)),
              ("ServerSideEncryption", BVal.vstr sse)])]

/-- The `s3.Location` string of an upload result, used to observe the
environment dependence of `upload_file`. -/
def s3LocationOf : ROut (List (String × BVal)) → Option String
  | ROut.ok d =>
    match alookup d "s3" with
    | some (BVal.vdoc s) =>
      match alookup s "Location" with
      | some (BVal.vstr l) => some l
      | _ => none
    | _ => none
  | _ => none

/-! ## The persisted store and the two passes of `process`

For the reconciliation claims the store is abstracted to the facts the
code observes about a record: its `council`, its `summary.reference`
(the value `check_reference` / `check_decision_exisits` filter on) and
whether its documents array contains a `decision_notice` entry.  MongoDB
`find_one` returns the first match and `update_one` updates the first
match, which the list model mirrors.  The per-case network and S3 calls
of `process` are a deterministic oracle; `thread::sleep`, the progress
bar and `println!` are effect-free for these claims and are omitted. -/

/-- The store-visible abstraction of one persisted case record. -/
structure SRec where
  council : String
  reference : String
  hasDecision : Bool
deriving DecidableEq, Repr

/-- The filter `{council, summary.reference}` used by `mongo.rs`. -/
def refMatches (ref : String) (r : SRec) : Bool :=
  r.council == COUNTY && r.reference == ref

/-- Model of `mongo::check_reference` (mongo.rs lines 16-29): first
record matching council and reference. -/
def check_reference (store : List SRec) (ref : String) : Option SRec :=
  store.find? (refMatches ref)

/-- Model of `mongo::check_decision_exisits` (mongo.rs lines 45-63):
first record matching council and reference whose documents contain a
`decision_notice`. -/
def check_decision_exisits (store : List SRec) (ref : String) : Option SRec :=
  store.find? (fun r => refMatches ref r && r.hasDecision)

/-- `update_one`: rewrite the first record matching the filter. -/
def updateFirst (ref : String) (f : SRec → SRec) : List SRec → List SRec
  | [] => []
  | r :: rest =>
    if refMatches ref r then f r :: rest else r :: updateFirst ref f rest

/-- Number of store records matching council + reference. -/
def refCount (store : List SRec) (ref : String) : Nat :=
  (store.filter (refMatches ref)).length

/-- What a freshly extracted case record (`get_document`) contributes to
the store abstraction: the `summary.reference` value read from the
print-preview page. -/
structure CaseData where
  reference : String
deriving DecidableEq, Repr

/-- The deterministic per-case effect oracle of one `process` run:
`extractDocs` keyed by the documents-page URL, `getDocument` keyed by the
full case URL, `upload` keyed by document type and source URL. -/
structure Oracle where
  extractDocs : String → ROut (String × List (String × String))
  getDocument : String → ROut CaseData
  upload : String → String → ROut Unit

/-- `link.replace("=summary", "=documents")` as computed in `process`. -/
def toDocumentsUrl (link : String) : String :=
  strReplace link "=summary" "=documents"

/-- `format!("{}{}", BASE_URL, link)` as computed in `process`. -/
def fullUrl (link : String) : String := BASE_URL ++ link

/-- The `for (k, v) in docs` upload loop of the decided pass's insert
branch (lines 609-621): each failing upload is skipped — the `continue`
sits in this inner loop, so it abandons only the failing document — and
the successfully uploaded document types are pushed. -/
def uploadAllDocs (w : Oracle) : List (String × String) → ROut (List String)
  | [] => ROut.ok []
  | (k, v) :: rest =>
    match w.upload k v with
    | ROut.panicked m => ROut.panicked m
    | ROut.err _ => uploadAllDocs w rest
    | ROut.ok _ =>
      match uploadAllDocs w rest with
      | ROut.panicked m => ROut.panicked m
      | ROut.err e => ROut.err e
      | ROut.ok ks => ROut.ok (k :: ks)

/-- One iteration of the decided-pass loop of `process` (lines 538-636).
`ROut.ok` is the loop continuing with the (possibly changed) store;
`ROut.err` is the `?` on the `get_document` call of the update branch
(line 583) propagating out of `process`; `ROut.panicked` is a panic. -/
def decidedStep (w : Oracle) (store : List SRec) (link : String) :
    ROut (List SRec) :=
  match w.extractDocs (toDocumentsUrl link) with
  | ROut.panicked m => ROut.panicked m
  | ROut.err _ => ROut.ok store
  | ROut.ok (refId, docs) =>
    if (check_decision_exisits store refId).isSome then ROut.ok store
    else if (check_reference store refId).isSome then
      match alookup docs "decision_notice" with
      | none => ROut.ok store
      | some dlink =>
        match w.upload "decision_notice" dlink with
        | ROut.panicked m => ROut.panicked m
        | ROut.err _ => ROut.ok store
        | ROut.ok _ =>
          match w.getDocument (fullUrl link) with
          | ROut.panicked m => ROut.panicked m
          | ROut.err e => ROut.err e
          | ROut.ok d =>
            ROut.ok (updateFirst refId
              (fun r => { r with reference := d.reference, hasDecision := true })
              store)
    else
      match w.getDocument (fullUrl link) with
      | ROut.panicked m => ROut.panicked m
      | ROut.err _ => ROut.ok store
      | ROut.ok d =>
        match uploadAllDocs w docs with
        | ROut.panicked m => ROut.panicked m
        | ROut.err e => ROut.err e
        | ROut.ok ks =>
          ROut.ok (store ++ [⟨COUNTY, d.reference, ks.contains "decision_notice"⟩])

/-- The decided-pass loop over its case links. -/
def decidedPass (w : Oracle) (store : List SRec) : List String → ROut (List SRec)
  | [] => ROut.ok store
  | l :: ls =>
    match decidedStep w store l with
    | ROut.panicked m => ROut.panicked m
    | ROut.err e => ROut.err e
    | ROut.ok st => decidedPass w st ls

/-- State threaded through the validated pass: the store plus counters of
blob uploads performed and records inserted. -/
structure VState where
  store : List SRec
  uploads : Nat
  inserts : Nat
deriving DecidableEq, Repr

/-- One iteration of the validated-pass loop of `process` (lines
457-523): skip when the reference is already stored; skip when no
`application_form` was classified; otherwise extract the record, upload
the application form and insert. -/
def validatedStep (w : Oracle) (st : VState) (link : String) : ROut VState :=
  match w.extractDocs (toDocumentsUrl link) with
  | ROut.panicked m => ROut.panicked m
  | ROut.err _ => ROut.ok st
  | ROut.ok (refId, docs) =>
    if (check_reference st.store refId).isSome then ROut.ok st
    else
      match alookup docs "application_form" with
      | none => ROut.ok st
      | some formLink =>
        match w.getDocument (fullUrl link) with
        | ROut.panicked m => ROut.panicked m
        | ROut.err _ => ROut.ok st
        | ROut.ok d =>
          match w.upload "application_form" formLink with
          | ROut.panicked m => ROut.panicked m
          | ROut.err _ => ROut.ok st
          | ROut.ok _ =>
            ROut.ok ⟨st.store ++ [⟨COUNTY, d.reference, false⟩],
              st.uploads + 1, st.inserts + 1⟩

/-- The validated-pass loop over its case links. -/
def validatedPass (w : Oracle) (st : VState) : List String → ROut VState
  | [] => ROut.ok st
  | l :: ls =>
    match validatedStep w st l with
    | ROut.panicked m => ROut.panicked m
    | ROut.err e => ROut.err e
    | ROut.ok st2 => validatedPass w st2 ls

/-! ## Predicates and concrete worlds used by the claim theorems -/

/-- No oracle call ever panics (the panicking extraction paths of claims
C4 and C10 are outside this predicate). -/
def noPanics (w : Oracle) : Prop :=
  (∀ u m, w.extractDocs u ≠ ROut.panicked m) ∧
  (∀ u m, w.getDocument u ≠ ROut.panicked m) ∧
  (∀ t u m, w.upload t u ≠ ROut.panicked m)

/-- Every oracle call succeeds: the failure-free runs that the
idempotence property of the spec quantifies over. -/
def failFree (w : Oracle) : Prop :=
  (∀ u, ∃ r, w.extractDocs u = ROut.ok r) ∧
  (∀ u, ∃ d, w.getDocument u = ROut.ok d) ∧
  (∀ t u, w.upload t u = ROut.ok ())

/-- For every case link, the reference id extracted from the documents
page (`extract_docs`) equals the `summary.reference` value extracted from
the print-preview page (`get_document`) — the agreement that the source's
existing-reference check silently relies on. -/
def refsAgree (w : Oracle) : Prop :=
  ∀ l rid docs d, w.extractDocs (toDocumentsUrl l) = ROut.ok (rid, docs) →
    w.getDocument (fullUrl l) = ROut.ok d → d.reference = rid

/-- `ref` is the reference of some case link of the pass whose documents
page classified an `application_form` link. -/
def qualifyingRef (w : Oracle) (links : List String) (ref : String) : Prop :=
  ∃ l, l ∈ links ∧ ∃ docs,
    w.extractDocs (toDocumentsUrl l) = ROut.ok (ref, docs) ∧
    (alookup docs "application_form").isSome

/-- A decided-pass world in which case link "L1" reaches the update
branch (reference known, no decision yet, decision link classified,
upload succeeds) and the record re-extraction then fails: the `?` on
line 583 propagates. -/
def abortOracle : Oracle where
  extractDocs := fun u =>
    if u == "L1" then ROut.ok ("R1", [("decision_notice", "/d1")])
    else ROut.ok ("RX", [])
  getDocument := fun _ => ROut.err "boom"
  upload := fun _ _ => ROut.ok ()

/-- A world in which extracting the documents page of every case fails
with a returned (caught) error. -/
def errOracle : Oracle where
  extractDocs := fun _ => ROut.err "net down"
  getDocument := fun _ => ROut.ok ⟨"R9"⟩
  upload := fun _ _ => ROut.ok ()

/-- A failure-free world with agreeing references, used to witness the
amended idempotence claim. -/
def agreeOracle : Oracle where
  extractDocs := fun _ => ROut.ok ("R1", [("application_form", "/f")])
  getDocument := fun _ => ROut.ok ⟨"R1"⟩
  upload := fun _ _ => ROut.ok ()

/-- A failure-free world in which the documents page of every case shows
reference "R1" while its print preview carries reference "R0" — the two
extraction sources disagree. -/
def mismatchOracle : Oracle where
  extractDocs := fun _ => ROut.ok ("R1", [("application_form", "/f")])
  getDocument := fun _ => ROut.ok ⟨"R0"⟩
  upload := fun _ _ => ROut.ok ()

/-- A documents-listing page without the
`div.addressCrumb > span.caseNumber` element. -/
def noRefPage : DocsPage := ⟨none, []⟩

/-- A decided-pass world whose case "L1" has a documents page without a
reference id. -/
def noRefOracle : Oracle where
  extractDocs := fun u =>
    if u == "L1" then extract_docs noRefPage else ROut.ok ("RX", [])
  getDocument := fun _ => ROut.err "x"
  upload := fun _ _ => ROut.ok ()

/-- An environment defining the two AWS variables with bucket
"bucket-one". -/
def envOne : String → Option String := fun k =>
  if k == "AWS_BUCKET_NAME" then some "bucket-one"
  else if k == "AWS_REGION" then some "eu-west-2" else none

/-- Same environment except the bucket is "bucket-two". -/
def envTwo : String → Option String := fun k =>
  if k == "AWS_BUCKET_NAME" then some "bucket-two"
  else if k == "AWS_REGION" then some "eu-west-2" else none

/-- An environment with no AWS variables at all. -/
def envEmpty : String → Option String := fun _ => none

/-- A stored record as the decided pass sees it before an update. -/
def sampleStored : List (String × BVal) :=
  [("council", BVal.vstr "Leeds"),
   ("link", BVal.vstr "/case?x=summary"),
   ("summary", BVal.vdoc [("reference", BVal.vstr "R1")]),
   ("further_information", BVal.vdoc []),
   ("created_at", BVal.vdate 1),
   ("created_by", BVal.vstr actorId),
   ("updated_at", BVal.vdate 1),
   ("updated_by", BVal.vstr actorId),
   ("details_url", BVal.vstr "/case?x=details"),
   ("documents_url", BVal.vstr "/case?x=documents"),
   ("documents", BVal.varr [BVal.vdoc [("doc_type", BVal.vstr "application_form")]]),
   ("agent_details", BVal.vdoc [])]

/-- A freshly re-extracted record used in the update witness. -/
def sampleNew : List (String × BVal) :=
  [("summary", BVal.vdoc [("reference", BVal.vstr "R1"),
      ("decision", BVal.vstr "Approved")]),
   ("further_information", BVal.vdoc [("ward", BVal.vstr "North")]),
   ("agent_details", BVal.vdoc [("agent_email", BVal.vstr "a@b.c")])]

/-- The uploaded decision-notice descriptor used in the update witness. -/
def sampleFile : List (String × BVal) :=
  [("doc_type", BVal.vstr "decision_notice")]

/-- The one-page portal used to witness the pagination claims: every URL
resolves to a final page. -/
def chainPortal : String → ResultsPage := fun _ => ⟨["b"], none⟩

/-!
Theorems.

General lemmas about the association-list operations, then one theorem
per claim (with its counterexample and witness theorems where required).
-/

theorem alookup_append {β : Type} (m1 m2 : List (String × β)) (k : String) :
    alookup (m1 ++ m2) k =
      match alookup m1 k with
      | some v => some v
      | none => alookup m2 k := by
  induction m1 with
  | nil => rfl
  | cons p r ih =>
    by_cases h : p.1 = k
    · simp [alookup, h]
    · simp [alookup, h, ih]

theorem alookup_isSome_of_mem_keys {β : Type} (m : List (String × β))
    (k : String) (h : k ∈ m.map Prod.fst) : (alookup m k).isSome := by
  induction m with
  | nil => simp at h
  | cons p r ih =>
    by_cases hak : p.1 = k
    · simp [alookup, hak]
    · simp only [List.map_cons, List.mem_cons] at h
      rcases h with h | h
      · exact absurd h.symm hak
      · simpa [alookup, hak] using ih h

theorem alookup_map_overwrite_self {β : Type} (m : List (String × β))
    (k : String) (v : β) (h : (alookup m k).isSome) :
    alookup (m.map (fun p => if p.1 = k then (k, v) else p)) k = some v := by
  induction m with
  | nil => simp [alookup] at h
  | cons p r ih =>
    obtain ⟨a, b⟩ := p
    by_cases hak : a = k
    · subst hak
      rw [List.map_cons]
      rw [show (if (a, b).1 = a then (a, v) else (a, b)) = (a, v) from if_pos rfl]
      simp [alookup]
    · simp only [alookup, hak, if_false] at h
      rw [List.map_cons]
      rw [show (if (a, b).1 = k then (k, v) else (a, b)) = (a, b) from if_neg hak]
      simpa [alookup, hak] using ih h

theorem alookup_map_overwrite_ne {β : Type} (m : List (String × β))
    (k : String) (v : β) (key : String) (h : key ≠ k) :
    alookup (m.map (fun p => if p.1 = k then (k, v) else p)) key =
      alookup m key := by
  induction m with
  | nil => rfl
  | cons p r ih =>
    obtain ⟨a, b⟩ := p
    by_cases hak : a = k
    · subst hak
      have h1 : ¬ a = key := fun hc => h hc.symm
      rw [List.map_cons]
      rw [show (if (a, b).1 = a then (a, v) else (a, b)) = (a, v) from if_pos rfl]
      simp [alookup, h1, ih]
    · rw [List.map_cons]
      rw [show (if (a, b).1 = k then (k, v) else (a, b)) = (a, b) from if_neg hak]
      by_cases hpkey : a = key
      · simp [alookup, hpkey]
      · simp [alookup, hpkey, ih]

theorem alookup_aset_self {β : Type} (m : List (String × β)) (k : String)
    (v : β) : alookup (aset m k v) k = some v := by
  unfold aset
  split
  · exact alookup_map_overwrite_self m k v (by assumption)
  · rename_i hnone
    rw [alookup_append]
    rw [Option.not_isSome_iff_eq_none.mp hnone]
    simp [alookup]

theorem alookup_aset_ne {β : Type} (m : List (String × β)) (k : String)
    (v : β) (key : String) (h : key ≠ k) :
    alookup (aset m k v) key = alookup m key := by
  unfold aset
  split
  · exact alookup_map_overwrite_ne m k v key h
  · rw [alookup_append]
    have h1 : ¬ k = key := fun hc => h hc.symm
    cases hm : alookup m key with
    | some w => rfl
    | none => simp [alookup, h1]

theorem keys_map_overwrite {β : Type} (m : List (String × β)) (k : String)
    (v : β) :
    ((m.map (fun p => if p.1 = k then (k, v) else p)).map Prod.fst) =
      m.map Prod.fst := by
  induction m with
  | nil => rfl
  | cons p r ih =>
    obtain ⟨a, b⟩ := p
    by_cases hak : a = k
    · subst hak
      rw [List.map_cons]
      rw [show (if (a, b).1 = a then (a, v) else (a, b)) = (a, v) from if_pos rfl]
      simpa using ih
    · rw [List.map_cons]
      rw [show (if (a, b).1 = k then (k, v) else (a, b)) = (a, b) from if_neg hak]
      simpa using ih

theorem keys_nodup_aset {β : Type} (m : List (String × β)) (k : String)
    (v : β) (h : (m.map Prod.fst).Nodup) :
    ((aset m k v).map Prod.fst).Nodup := by
  unfold aset
  split
  · rw [keys_map_overwrite m k v]; exact h
  · rename_i hnone
    have hk : k ∉ m.map Prod.fst := by
      intro hmem
      exact hnone (alookup_isSome_of_mem_keys m k hmem)
    simp only [List.map_append, List.map_cons, List.map_nil]
    simp only [List.nodup_append, List.nodup_cons, List.not_mem_nil,
      not_false_iff, List.nodup_nil, true_and, and_true]
    refine ⟨h, ?_⟩
    intro a ha
    simp only [List.mem_singleton]
    intro hak
    exact hk (hak ▸ ha)

theorem getLast?_cons_getD {α : Type} (a : α) (l : List α) :
    (a :: l).getLast? = some (l.getLast?.getD a) := by
  induction l generalizing a with
  | nil => rfl
  | cons b t ih =>
    rw [List.getLast?_cons_cons, ih b]
    simp

theorem foldl_aset_alookup {α β : Type} (f : α → String) (g : α → β) :
    ∀ (l : List α) (acc : List (String × β)) (k : String),
      alookup (l.foldl (fun m r => aset m (f r) (g r)) acc) k =
        match (l.filter (fun r => f r == k)).getLast? with
        | some r => some (g r)
        | none => alookup acc k := by
  intro l
  induction l with
  | nil => intro acc k; rfl
  | cons r rest ih =>
    intro acc k
    rw [List.foldl_cons, ih (aset acc (f r) (g r)) k]
    by_cases hrk : f r = k
    · rw [List.filter_cons, if_pos (by simp [hrk])]
      rw [getLast?_cons_getD]
      cases hrl : (rest.filter (fun q => f q == k)).getLast? with
      | some q => simp [hrl]
      | none =>
        simp only [hrl, Option.getD_none]
        rw [hrk]
        rw [alookup_aset_self]
    · rw [List.filter_cons, if_neg (by simp [hrk])]
      cases hrl : (rest.filter (fun q => f q == k)).getLast? with
      | some q => rfl
      | none =>
        exact alookup_aset_ne acc (f r) (g r) k (fun hc => hrk hc.symm)

theorem foldl_aset_keys_nodup {α β : Type} (f : α → String) (g : α → β) :
    ∀ (l : List α) (acc : List (String × β)),
      (acc.map Prod.fst).Nodup →
      ((l.foldl (fun m r => aset m (f r) (g r)) acc).map Prod.fst).Nodup := by
  intro l
  induction l with
  | nil => intro acc h; exact h
  | cons r rest ih =>
    intro acc h
    rw [List.foldl_cons]
    exact ih (aset acc (f r) (g r)) (keys_nodup_aset acc (f r) (g r) h)

theorem filterFilter {α : Type} (p q : α → Bool) :
    ∀ l : List α, (l.filter p).filter q = l.filter (fun a => p a && q a) := by
  intro l
  induction l with
  | nil => rfl
  | cons a t ih =>
    by_cases hp : p a = true
    · by_cases hq : q a = true
      · simp [List.filter_cons, hp, hq, ih]
      · simp [List.filter_cons, hp, hq, ih]
    · simp [List.filter_cons, hp, ih]

/-- C6: a documents-table row qualifies iff its name or description
case-insensitively contains "decision" or "application form" and its link
is non-empty; a qualifying row classifies as decision_notice when it
mentions "decision", else application_form; the URL retained for a slot
is that of the last qualifying row in document order classifying to it
(later rows overwrite earlier ones), and the resulting map holds at most
one entry per classification. -/
theorem c6_classification :
    (∀ (rows : List DocRow) (slot : String),
      alookup (collectDocs rows) slot = lastMatchUrl rows slot) ∧
    (∀ rows : List DocRow, ((collectDocs rows).map Prod.fst).Nodup) ∧
    (∀ r : DocRow, rowQualifies r =
      (containsSub (lowerStr (trimStr r.name)) "decision" ||
       containsSub (lowerStr (trimStr r.description)) "decision" ||
       containsSub (lowerStr (trimStr r.name)) "application form" ||
       containsSub (lowerStr (trimStr r.description)) "application form")) ∧
    (∀ r : DocRow, classifyRow r =
      if (containsSub (lowerStr (trimStr r.name)) "decision" ||
          containsSub (lowerStr (trimStr r.description)) "decision") = true
      then "decision_notice" else "application_form") := by
  refine ⟨?_, ?_, ?_, ?_⟩
  · intro rows slot
    unfold collectDocs lastMatchUrl
    rw [foldl_aset_alookup classifyRow (fun r => BASE_URL ++ r.link)]
    rw [filterFilter rowLinkNonEmpty (fun r => classifyRow r == slot)]
    rw [filterFilter rowQualifies
      (fun r => rowLinkNonEmpty r && (classifyRow r == slot))]
    cases h : (rows.filter (fun r =>
        rowQualifies r && (rowLinkNonEmpty r && (classifyRow r == slot)))).getLast? with
    | some q => simp [h]
    | none => simp [h, alookup]
  · intro rows
    exact foldl_aset_keys_nodup classifyRow (fun r => BASE_URL ++ r.link)
      ((rows.filter rowQualifies).filter rowLinkNonEmpty) [] (by simp)
  · intro r
    simp [rowQualifies, rowMentions, Bool.or_assoc]
  · intro r
    simp only [classifyRow, rowMentions]

theorem parseWDMY_valid {s : String} {y m d : Nat}
    (h : parseWDMY s = some (y, m, d)) : validDate y m d := by
  unfold parseWDMY at h
  split at h
  · split at h
    · split at h
      · rename_i hcond
        simp only [Option.some.injEq, Prod.mk.injEq] at h
        obtain ⟨rfl, rfl, rfl⟩ := h
        exact hcond.1
      · exact absurd h (by simp)
    · exact absurd h (by simp)
  · exact absurd h (by simp)

/-- C9: date normalization is total: "Mon 03 Jun 2024" maps to
"2024-06-03", the empty string maps to an absent value, and every input
either maps to an absent value or to the ISO rendering of a valid
calendar date — never to a crash. -/
theorem c9_date_normalization :
    parse_date "Mon 03 Jun 2024" = some "2024-06-03" ∧
    parse_date "" = none ∧
    ∀ s : String, parse_date s = none ∨
      ∃ y m d, validDate y m d ∧ parse_date s = some (formatIso y m d) := by
  refine ⟨by decide, by decide, fun s => ?_⟩
  cases h : parseWDMY s with
  | none => exact Or.inl (by simp [parse_date, h])
  | some t =>
    obtain ⟨y, m, d⟩ := t
    exact Or.inr ⟨y, m, d, parseWDMY_valid h, by simp [parse_date, h]⟩

theorem walkPages_loopPortal (fuel : Nat) :
    ∀ acc, walkPages loopPortal fuel (some "pageA") acc = none := by
  induction fuel with
  | zero => intro acc; rfl
  | succ f ih => intro acc; exact ih _

/-- C2 counterexample: on the portal whose every page's next link is
"pageA" (a non-advancing cursor), the pagination walk never terminates —
no amount of fuel finishes it, and in particular no PaginationLoopError
(or any error at all: the loop has no error outcome) is raised. -/
theorem c2_counterexample : ¬ walkTerminates loopPortal (some "pageA") := by
  rintro ⟨fuel, out, h⟩
  exact Option.noConfusion ((walkPages_loopPortal fuel []).symm.trans h)

theorem walkPages_some_nextChain {portal : String → ResultsPage} :
    ∀ (fuel : Nat) (start : Option String) (acc out : List String),
      walkPages portal fuel start acc = some out →
      ∃ n, nextChain portal start n = none := by
  intro fuel
  induction fuel with
  | zero =>
    intro start acc out h
    cases start with
    | none => exact ⟨0, rfl⟩
    | some u => exact Option.noConfusion h
  | succ f ih =>
    intro start acc out h
    cases start with
    | none => exact ⟨0, rfl⟩
    | some u =>
      obtain ⟨n, hn⟩ := ih (portal u).nextLink (acc ++ (portal u).caseLinks) out h
      exact ⟨n + 1, hn⟩

theorem nextChain_none_walkPages {portal : String → ResultsPage} :
    ∀ (n : Nat) (start : Option String), nextChain portal start n = none →
      ∀ acc, ∃ out, walkPages portal n start acc = some out := by
  intro n
  induction n with
  | zero =>
    intro start h acc
    have hs : start = none := by
      cases start with
      | none => rfl
      | some u => exact absurd h (by simp [nextChain])
    subst hs
    exact ⟨acc, rfl⟩
  | succ k ih =>
    intro start h acc
    cases start with
    | none => exact ⟨acc, rfl⟩
    | some u =>
      exact ih (portal u).nextLink h (acc ++ (portal u).caseLinks)

/-- C2 amended: the walker performs no repeated-link detection and has no
error outcome; it terminates exactly when iterating the portal's next
links from the start cursor reaches a page with no next link, and hence
loops forever on a cyclic (non-advancing) chain. -/
theorem c2_amended (portal : String → ResultsPage) (start : Option String) :
    walkTerminates portal start ↔ ∃ n, nextChain portal start n = none := by
  constructor
  · rintro ⟨fuel, out, h⟩
    exact walkPages_some_nextChain fuel start [] out h
  · rintro ⟨n, hn⟩
    obtain ⟨out, hout⟩ := nextChain_none_walkPages n start hn []
    exact ⟨n, out, hout⟩

theorem walkPages_chain {portal : String → ResultsPage} :
    ∀ (rest : List ResultsPage) (p : ResultsPage) (fuel : Nat) (acc : List String),
      isChain portal p rest → rest.length ≤ fuel →
      walkPages portal fuel p.nextLink acc =
        some (acc ++ (rest.map ResultsPage.caseLinks).flatten) := by
  intro rest
  induction rest with
  | nil =>
    intro p fuel acc hc _
    have hn : p.nextLink = none := hc
    rw [hn]
    cases fuel <;> simp [walkPages]
  | cons q qs ih =>
    intro p fuel acc hc hlen
    obtain ⟨u, hnext, hpq, hchain⟩ := hc
    cases fuel with
    | zero => simp at hlen
    | succ f =>
      rw [hnext]
      show walkPages portal f (portal u).nextLink (acc ++ (portal u).caseLinks) = _
      rw [hpq]
      rw [ih q f (acc ++ q.caseLinks) hchain (by simpa using hlen)]
      simp

/-- C7: a results page with no next link yields exactly its own case
links; a first page followed by a chain of further pages (with enough
fuel for the chain) yields the concatenation of the pages' case links in
page order, and when those links are pairwise distinct the result has no
duplicates. -/
theorem c7_pagination :
    (∀ (portal : String → ResultsPage) (fuel : Nat) (first : ResultsPage),
      first.nextLink = none →
      extract_links_paged portal fuel first = some first.caseLinks) ∧
    (∀ (portal : String → ResultsPage) (first : ResultsPage)
        (rest : List ResultsPage) (fuel : Nat),
      isChain portal first rest → rest.length ≤ fuel →
      extract_links_paged portal fuel first =
        some (first.caseLinks ++ (rest.map ResultsPage.caseLinks).flatten) ∧
      ((first.caseLinks ++ (rest.map ResultsPage.caseLinks).flatten).Nodup →
        ∀ out, extract_links_paged portal fuel first = some out → out.Nodup)) := by
  constructor
  · intro portal fuel first h
    unfold extract_links_paged
    rw [h]
    cases fuel <;> rfl
  · intro portal first rest fuel hc hlen
    have he : extract_links_paged portal fuel first =
        some (first.caseLinks ++ (rest.map ResultsPage.caseLinks).flatten) :=
      walkPages_chain rest first fuel first.caseLinks hc hlen
    refine ⟨he, ?_⟩
    intro hnd out hout
    have h2 := Option.some.inj (he.symm.trans hout)
    rw [← h2]
    exact hnd

/-- C7 witness: on a two-page chain the walker returns the two pages'
links in order, and on a single page with no next link it returns just
that page's links. -/
theorem c7_pagination_witness :
    extract_links_paged chainPortal 1 ⟨["a"], some "u1"⟩ = some ["a", "b"] ∧
    extract_links_paged chainPortal 0 ⟨["c"], none⟩ = some ["c"] := by
  constructor
  · have h := (c7_pagination.2 chainPortal ⟨["a"], some "u1"⟩ [⟨["b"], none⟩] 1
      ⟨"u1", rfl, rfl, rfl⟩ (by decide)).1
    rw [h]
    rfl
  · exact c7_pagination.1 chainPortal 0 ⟨["c"], none⟩ rfl

/-- C10 counterexample: a key/value table row with no `th` cell makes
record extraction panic ("No th found") instead of being skipped — the
rows after it are never processed. -/
theorem c10_counterexample :
    extractRows [⟨none, some "value"⟩, ⟨some "Reference", some "X"⟩] =
      ROut.panicked "No th found" := by decide

/-- C10 amended: row extraction is total only over rows that have both a
`th` and a `td` cell; on such rows it returns the normalized
(label, value) pairs in order, while a row missing either cell panics
(shown by the counterexample). -/
theorem c10_amended :
    ∀ rows : List KVRow, (∀ r ∈ rows, r.th.isSome ∧ r.td.isSome) →
      extractRows rows = ROut.ok (rows.map (fun r =>
        (normalizeKey (r.th.getD ""), trimStr (r.td.getD "")))) := by
  intro rows h
  induction rows with
  | nil => rfl
  | cons r rs ih =>
    obtain ⟨hth, htd⟩ := h r (by simp)
    obtain ⟨a, ha⟩ := Option.isSome_iff_exists.mp hth
    obtain ⟨b, hb⟩ := Option.isSome_iff_exists.mp htd
    have hr : extractRow r = ROut.ok (normalizeKey a, trimStr b) := by
      unfold extractRow
      rw [ha, hb]
    have hrs := ih (fun q hq => h q (by simp [hq]))
    simp [extractRows, hr, hrs, ha, hb]

/-- C10 witness: a well-formed row extracts to its normalized pair. -/
theorem c10_amended_witness :
    extractRows [⟨some "Application Validated", some " Mon 03 Jun 2024 "⟩] =
      ROut.ok [("application_validated", "Mon 03 Jun 2024")] := by
  have h := c10_amended [⟨some "Application Validated", some " Mon 03 Jun 2024 "⟩]
    (fun r hr => by
      simp only [List.mem_singleton] at hr
      subst hr
      exact ⟨rfl, rfl⟩)
  rw [h]
  decide

theorem decidedStep_extract_err {w : Oracle} {l : String} {e : String}
    (store : List SRec) (h : w.extractDocs (toDocumentsUrl l) = ROut.err e) :
    decidedStep w store l = ROut.ok store := by
  unfold decidedStep
  rw [h]

theorem decidedStep_extract_panic {w : Oracle} {l : String} {m : String}
    (store : List SRec) (h : w.extractDocs (toDocumentsUrl l) = ROut.panicked m) :
    decidedStep w store l = ROut.panicked m := by
  unfold decidedStep
  rw [h]

theorem decidedPass_cons_ok {w : Oracle} {st st2 : List SRec} {l : String}
    (ls : List String) (h : decidedStep w st l = ROut.ok st2) :
    decidedPass w st (l :: ls) = decidedPass w st2 ls := by
  conv_lhs => unfold decidedPass
  rw [h]

theorem decidedPass_cons_panic {w : Oracle} {st : List SRec} {l : String}
    {m : String} (ls : List String)
    (h : decidedStep w st l = ROut.panicked m) :
    decidedPass w st (l :: ls) = ROut.panicked m := by
  conv_lhs => unfold decidedPass
  rw [h]

theorem decidedStep_ok_unfold {w : Oracle} {l refId : String}
    {docs : List (String × String)} (store : List SRec)
    (h : w.extractDocs (toDocumentsUrl l) = ROut.ok (refId, docs)) :
    decidedStep w store l =
      if (check_decision_exisits store refId).isSome then ROut.ok store
      else if (check_reference store refId).isSome then
        match alookup docs "decision_notice" with
        | none => ROut.ok store
        | some dlink =>
          match w.upload "decision_notice" dlink with
          | ROut.panicked m => ROut.panicked m
          | ROut.err _ => ROut.ok store
          | ROut.ok _ =>
            match w.getDocument (fullUrl l) with
            | ROut.panicked m => ROut.panicked m
            | ROut.err e => ROut.err e
            | ROut.ok d => ROut.ok (updateFirst refId
                (fun r => { r with reference := d.reference, hasDecision := true })
                store)
      else
        match w.getDocument (fullUrl l) with
        | ROut.panicked m => ROut.panicked m
        | ROut.err _ => ROut.ok store
        | ROut.ok d =>
          match uploadAllDocs w docs with
          | ROut.panicked m => ROut.panicked m
          | ROut.err e => ROut.err e
          | ROut.ok ks =>
            ROut.ok (store ++ [⟨COUNTY, d.reference, ks.contains "decision_notice"⟩]) := by
  unfold decidedStep
  rw [h]

theorem decidedStep_skip_decision {w : Oracle} {l refId : String}
    {docs : List (String × String)} (store : List SRec)
    (he : w.extractDocs (toDocumentsUrl l) = ROut.ok (refId, docs))
    (hdec : (check_decision_exisits store refId).isSome = true) :
    decidedStep w store l = ROut.ok store := by
  rw [decidedStep_ok_unfold store he, if_pos hdec]

theorem decidedStep_update_nodl {w : Oracle} {l refId : String}
    {docs : List (String × String)} (store : List SRec)
    (he : w.extractDocs (toDocumentsUrl l) = ROut.ok (refId, docs))
    (hdec : ¬ (check_decision_exisits store refId).isSome = true)
    (href : (check_reference store refId).isSome = true)
    (hdl : alookup docs "decision_notice" = none) :
    decidedStep w store l = ROut.ok store := by
  rw [decidedStep_ok_unfold store he, if_neg hdec, if_pos href, hdl]

theorem decidedStep_update_branch {w : Oracle} {l refId dlink : String}
    {docs : List (String × String)} (store : List SRec)
    (he : w.extractDocs (toDocumentsUrl l) = ROut.ok (refId, docs))
    (hdec : ¬ (check_decision_exisits store refId).isSome = true)
    (href : (check_reference store refId).isSome = true)
    (hdl : alookup docs "decision_notice" = some dlink) :
    decidedStep w store l =
      match w.upload "decision_notice" dlink with
      | ROut.panicked m => ROut.panicked m
      | ROut.err _ => ROut.ok store
      | ROut.ok _ =>
        match w.getDocument (fullUrl l) with
        | ROut.panicked m => ROut.panicked m
        | ROut.err e => ROut.err e
        | ROut.ok d => ROut.ok (updateFirst refId
            (fun r => { r with reference := d.reference, hasDecision := true })
            store) := by
  rw [decidedStep_ok_unfold store he, if_neg hdec, if_pos href, hdl]

theorem decidedStep_insert_branch {w : Oracle} {l refId : String}
    {docs : List (String × String)} (store : List SRec)
    (he : w.extractDocs (toDocumentsUrl l) = ROut.ok (refId, docs))
    (hdec : ¬ (check_decision_exisits store refId).isSome = true)
    (href : ¬ (check_reference store refId).isSome = true) :
    decidedStep w store l =
      match w.getDocument (fullUrl l) with
      | ROut.panicked m => ROut.panicked m
      | ROut.err _ => ROut.ok store
      | ROut.ok d =>
        match uploadAllDocs w docs with
        | ROut.panicked m => ROut.panicked m
        | ROut.err e => ROut.err e
        | ROut.ok ks =>
          ROut.ok (store ++ [⟨COUNTY, d.reference, ks.contains "decision_notice"⟩]) := by
  rw [decidedStep_ok_unfold store he, if_neg hdec, if_neg href]

theorem uploadAllDocs_ok {w : Oracle}
    (hnp : ∀ t u m, w.upload t u ≠ ROut.panicked m) :
    ∀ docs : List (String × String), ∃ ks, uploadAllDocs w docs = ROut.ok ks := by
  intro docs
  induction docs with
  | nil => exact ⟨[], rfl⟩
  | cons p rest ih =>
    obtain ⟨k, v⟩ := p
    obtain ⟨ks, hks⟩ := ih
    cases hu : w.upload k v with
    | panicked m => exact absurd hu (hnp k v m)
    | err e =>
      refine ⟨ks, ?_⟩
      unfold uploadAllDocs
      rw [hu, hks]
    | ok a =>
      refine ⟨k :: ks, ?_⟩
      unfold uploadAllDocs
      rw [hu, hks]

/-- C1 counterexample: in the decided pass, with the store already
holding reference "R1" without a decision notice and the portal
classifying a decision_notice link for case "L1", a failing record
re-extraction (`get_document` returning an error after the successful
upload) aborts the entire pass via the `?` operator — the pass returns
the error and the remaining case link "L2" is never processed, instead
of the case being skipped. -/
theorem c1_counterexample :
    decidedPass abortOracle [⟨COUNTY, "R1", false⟩] ["L1", "L2"] =
      ROut.err "boom" := by decide

/-- C1 amended: in the decided pass, a failure of the documents-page
extraction is isolated (the case is skipped and iteration continues with
the next link), and the pass runs to completion whenever no operation
panics and record extraction succeeds for every link; the only returned
failure that aborts the pass is a `get_document` error in the
update branch (exhibited by the counterexample). -/
theorem c1_amended :
    (∀ (w : Oracle) (st : List SRec) (l : String) (ls : List String)
        (e : String), w.extractDocs (toDocumentsUrl l) = ROut.err e →
      decidedPass w st (l :: ls) = decidedPass w st ls) ∧
    (∀ (w : Oracle) (links : List String) (st : List SRec),
      noPanics w → (∀ l ∈ links, ∃ d, w.getDocument (fullUrl l) = ROut.ok d) →
      ∃ st2, decidedPass w st links = ROut.ok st2) := by
  constructor
  · intro w st l ls e h
    exact decidedPass_cons_ok ls (decidedStep_extract_err st h)
  · intro w links st hnp hget
    induction links generalizing st with
    | nil => exact ⟨st, rfl⟩
    | cons l ls ih =>
      obtain ⟨d, hd⟩ := hget l (by simp)
      have hstep : ∃ stm, decidedStep w st l = ROut.ok stm := by
        cases he : w.extractDocs (toDocumentsUrl l) with
        | panicked m => exact absurd he (hnp.1 _ m)
        | err e => exact ⟨st, decidedStep_extract_err st he⟩
        | ok rd =>
          obtain ⟨refId, docs⟩ := rd
          by_cases hdec : (check_decision_exisits st refId).isSome
          · exact ⟨st, decidedStep_skip_decision st he hdec⟩
          · by_cases href : (check_reference st refId).isSome
            · cases hdl : alookup docs "decision_notice" with
              | none => exact ⟨st, decidedStep_update_nodl st he hdec href hdl⟩
              | some dlink =>
                rw [decidedStep_update_branch st he hdec href hdl]
                cases hu : w.upload "decision_notice" dlink with
                | panicked m => exact absurd hu (hnp.2.2 _ _ m)
                | err e => exact ⟨st, rfl⟩
                | ok a =>
                  rw [hd]
                  exact ⟨_, rfl⟩
            · rw [decidedStep_insert_branch st he hdec href]
              rw [hd]
              obtain ⟨ks, hks⟩ := uploadAllDocs_ok hnp.2.2 docs
              rw [hks]
              exact ⟨_, rfl⟩
      obtain ⟨stm, hstep⟩ := hstep
      obtain ⟨st2, h2⟩ := ih stm (fun q hq => hget q (by simp [hq]))
      exact ⟨st2, (decidedPass_cons_ok ls hstep).trans h2⟩

/-- C1 witness: with a world whose documents-page extraction always
fails with a returned error, the first case is skipped and the pass
continues with (and completes on) the remaining links. -/
theorem c1_amended_witness :
    decidedPass errOracle [] ["W1", "W2"] = decidedPass errOracle [] ["W2"] ∧
    ∃ st2, decidedPass errOracle [] ["W1", "W2"] = ROut.ok st2 := by
  constructor
  · exact c1_amended.1 errOracle [] "W1" ["W2"] "net down" rfl
  · exact c1_amended.2 errOracle ["W1", "W2"] []
      ⟨fun u m h => ROut.noConfusion h, fun u m h => ROut.noConfusion h,
       fun t u m h => ROut.noConfusion h⟩
      (fun l hl => ⟨⟨"R9"⟩, rfl⟩)

/-- C4 counterexample: a documents page with no extractable reference id
makes `extract_docs` panic ("No reference id found") — the
`.ok_or(..).expect(..)` is a panic, not a returned error — and in the
decided pass that panic aborts the whole run: link "L2" is never
reached, so the case is not merely skipped. -/
theorem c4_counterexample :
    extract_docs noRefPage = ROut.panicked "No reference id found" ∧
    decidedPass noRefOracle [] ["L1", "L2"] =
      ROut.panicked "No reference id found" := by
  constructor
  · rfl
  · decide

/-- C4 amended: when the reference element is present, `extract_docs`
returns its trimmed text with the classified documents map; a returned
error from the documents-page extraction causes only that case to be
skipped with the pass continuing; but a missing reference id panics
(counterexample), which aborts the pass rather than skipping the case. -/
theorem c4_amended :
    (∀ (p : DocsPage) (s : String), p.refSpan = some s →
      extract_docs p = ROut.ok (trimStr s, collectDocs p.rows)) ∧
    (∀ (w : Oracle) (st : List SRec) (l : String) (ls : List String)
        (e : String), w.extractDocs (toDocumentsUrl l) = ROut.err e →
      decidedPass w st (l :: ls) = decidedPass w st ls) ∧
    (∀ (w : Oracle) (st : List SRec) (l : String) (ls : List String)
        (m : String), w.extractDocs (toDocumentsUrl l) = ROut.panicked m →
      decidedPass w st (l :: ls) = ROut.panicked m) := by
  refine ⟨?_, ?_, ?_⟩
  · intro p s h
    unfold extract_docs
    rw [h]
  · intro w st l ls e h
    exact decidedPass_cons_ok ls (decidedStep_extract_err st h)
  · intro w st l ls m h
    exact decidedPass_cons_panic ls (decidedStep_extract_panic st h)

/-- C4 witness: a page with reference " R1 " extracts successfully; an
error-returning extraction skips the case; the panicking world aborts
the pass at the first link. -/
theorem c4_amended_witness :
    extract_docs ⟨some " R1 ", []⟩ = ROut.ok ("R1", []) ∧
    decidedPass errOracle [] ["V1", "V2"] = decidedPass errOracle [] ["V2"] ∧
    decidedPass noRefOracle [] ["L1", "L2"] =
      ROut.panicked "No reference id found" := by
  refine ⟨?_, ?_, ?_⟩
  · have h := c4_amended.1 ⟨some " R1 ", []⟩ " R1 " rfl
    rw [h]
    decide
  · exact c4_amended.2.1 errOracle [] "V1" ["V2"] "net down" rfl
  · exact c4_amended.2.2 noRefOracle [] "L1" ["L2"] "No reference id found" rfl

/-- C5: the update issued in the decided pass's update branch sets
exactly `summary`, `further_information` and `agent_details` (to the
freshly extracted sub-records), `documents` (to the stored document list
with the new descriptor appended, so prior documents are preserved) and
`updated_at` / `updated_by`; every other top-level field of the stored
record (council, link, details_url, documents_url, created_at,
created_by, ...) is unchanged. -/
theorem c5_decided_update :
    ∀ (stored newDoc file : List (String × BVal)) (now : Nat),
      alookup (applyDecidedUpdate stored newDoc file now) "summary" =
        some (getSubDoc newDoc "summary") ∧
      alookup (applyDecidedUpdate stored newDoc file now) "further_information" =
        some (getSubDoc newDoc "further_information") ∧
      alookup (applyDecidedUpdate stored newDoc file now) "agent_details" =
        some (getSubDoc newDoc "agent_details") ∧
      alookup (applyDecidedUpdate stored newDoc file now) "documents" =
        some (BVal.varr (getDocsArray stored ++ [BVal.vdoc file])) ∧
      alookup (applyDecidedUpdate stored newDoc file now) "updated_at" =
        some (BVal.vdate now) ∧
      alookup (applyDecidedUpdate stored newDoc file now) "updated_by" =
        some (BVal.vstr actorId) ∧
      ∀ k, k ∉ decidedUpdateKeys →
        alookup (applyDecidedUpdate stored newDoc file now) k =
          alookup stored k := by
  intro stored newDoc file now
  have hexp : applyDecidedUpdate stored newDoc file now =
      aset (aset (aset (aset (aset (aset stored
        "summary" (getSubDoc newDoc "summary"))
        "further_information" (getSubDoc newDoc "further_information"))
        "documents" (BVal.varr (getDocsArray stored ++ [BVal.vdoc file])))
        "agent_details" (getSubDoc newDoc "agent_details"))
        "updated_at" (BVal.vdate now))
        "updated_by" (BVal.vstr actorId) := rfl
  rw [hexp]
  refine ⟨?_, ?_, ?_, ?_, ?_, ?_, ?_⟩
  · rw [alookup_aset_ne _ _ _ _ (by decide), alookup_aset_ne _ _ _ _ (by decide),
      alookup_aset_ne _ _ _ _ (by decide), alookup_aset_ne _ _ _ _ (by decide),
      alookup_aset_ne _ _ _ _ (by decide), alookup_aset_self]
  · rw [alookup_aset_ne _ _ _ _ (by decide), alookup_aset_ne _ _ _ _ (by decide),
      alookup_aset_ne _ _ _ _ (by decide), alookup_aset_ne _ _ _ _ (by decide),
      alookup_aset_self]
  · rw [alookup_aset_ne _ _ _ _ (by decide), alookup_aset_ne _ _ _ _ (by decide),
      alookup_aset_self]
  · rw [alookup_aset_ne _ _ _ _ (by decide), alookup_aset_ne _ _ _ _ (by decide),
      alookup_aset_ne _ _ _ _ (by decide), alookup_aset_self]
  · rw [alookup_aset_ne _ _ _ _ (by decide), alookup_aset_self]
  · rw [alookup_aset_self]
  · intro k hk
    simp only [decidedUpdateKeys, List.mem_cons, List.not_mem_nil, or_false,
      not_or] at hk
    obtain ⟨h1, h2, h3, h4, h5, h6⟩ := hk
    rw [alookup_aset_ne _ _ _ _ h6, alookup_aset_ne _ _ _ _ h5,
      alookup_aset_ne _ _ _ _ h4, alookup_aset_ne _ _ _ _ h3,
      alookup_aset_ne _ _ _ _ h2, alookup_aset_ne _ _ _ _ h1]

/-- C5 witness: on a concrete stored record, an unrelated field such as
`council` is untouched while `documents` becomes the prior list with the
decision notice appended. -/
theorem c5_decided_update_witness :
    alookup (applyDecidedUpdate sampleStored sampleNew sampleFile 7) "council" =
      alookup sampleStored "council" ∧
    alookup (applyDecidedUpdate sampleStored sampleNew sampleFile 7) "documents" =
      some (BVal.varr (getDocsArray sampleStored ++ [BVal.vdoc sampleFile])) ∧
    alookup (applyDecidedUpdate sampleStored sampleNew sampleFile 7) "summary" =
      some (getSubDoc sampleNew "summary") := by
  have h := c5_decided_update sampleStored sampleNew sampleFile 7
  exact ⟨h.2.2.2.2.2.2 "council" (by decide), h.2.2.2.1, h.1⟩

/-- C8 counterexample: `upload_file` reads the AWS configuration from the
ambient process environment on every call during the crawl — the same
call (same file type, key, size, request outcome) returns a different
location descriptor under two environments differing only in
AWS_BUCKET_NAME, so configuration is not only consumed via handles
created at process start. -/
theorem c8_counterexample :
    s3LocationOf (upload_file envOne "application_form" "K1" 10 true "" "") ≠
      s3LocationOf (upload_file envTwo "application_form" "K1" 10 true "" "") := by
  decide

/-- C8 amended: the MongoDB and AWS-client configuration is indeed loaded
at process start in `main`, but the blob uploader reads AWS_BUCKET_NAME
and AWS_REGION from the process environment on each call during the
crawl: its returned location is built from the environment values at
call time, and it panics when AWS_BUCKET_NAME is unset. -/
theorem c8_amended :
    (∀ (env : String → Option String) (ft key : String) (sz : Int)
        (etag sse bucket region : String),
      env "AWS_BUCKET_NAME" = some bucket → env "AWS_REGION" = some region →
      s3LocationOf (upload_file env ft key sz true etag sse) =
        some ("https://" ++ bucket ++ ".s3." ++ region ++ ".amazonaws.com/" ++ key)) ∧
    (∀ (env : String → Option String) (ft key : String) (sz : Int)
        (putOk : Bool) (etag sse : String),
      env "AWS_BUCKET_NAME" = none →
      upload_file env ft key sz putOk etag sse =
        ROut.panicked "called `Result::unwrap()` on an `Err` value") := by
  constructor
  · intro env ft key sz etag sse bucket region h1 h2
    unfold upload_file
    rw [h1, h2]
    simp [s3LocationOf, alookup]
  · intro env ft key sz putOk etag sse h
    unfold upload_file
    rw [h]

/-- C8 witness: under a concrete environment the returned location names
that environment's bucket and region; with no environment the call
panics. -/
theorem c8_amended_witness :
    s3LocationOf (upload_file envOne "decision_notice" "K2" 5 true "" "") =
      some "https://bucket-one.s3.eu-west-2.amazonaws.com/K2" ∧
    upload_file envEmpty "decision_notice" "K2" 5 true "" "" =
      ROut.panicked "called `Result::unwrap()` on an `Err` value" := by
  constructor
  · have h := c8_amended.1 envOne "decision_notice" "K2" 5 "" ""
      "bucket-one" "eu-west-2" rfl rfl
    rw [h]
    rfl
  · exact c8_amended.2 envEmpty "decision_notice" "K2" 5 true "" "" rfl

theorem validatedStep_extract_err {w : Oracle} {l e : String} (st : VState)
    (h : w.extractDocs (toDocumentsUrl l) = ROut.err e) :
    validatedStep w st l = ROut.ok st := by
  unfold validatedStep
  rw [h]

theorem validatedStep_ok_unfold {w : Oracle} {l refId : String}
    {docs : List (String × String)} (st : VState)
    (he : w.extractDocs (toDocumentsUrl l) = ROut.ok (refId, docs)) :
    validatedStep w st l =
      if (check_reference st.store refId).isSome then ROut.ok st
      else
        match alookup docs "application_form" with
        | none => ROut.ok st
        | some formLink =>
          match w.getDocument (fullUrl l) with
          | ROut.panicked m => ROut.panicked m
          | ROut.err _ => ROut.ok st
          | ROut.ok d =>
            match w.upload "application_form" formLink with
            | ROut.panicked m => ROut.panicked m
            | ROut.err _ => ROut.ok st
            | ROut.ok _ =>
              ROut.ok ⟨st.store ++ [⟨COUNTY, d.reference, false⟩],
                st.uploads + 1, st.inserts + 1⟩ := by
  unfold validatedStep
  rw [he]

theorem validatedStep_skip {w : Oracle} {l refId : String}
    {docs : List (String × String)} (st : VState)
    (he : w.extractDocs (toDocumentsUrl l) = ROut.ok (refId, docs))
    (href : (check_reference st.store refId).isSome = true) :
    validatedStep w st l = ROut.ok st := by
  rw [validatedStep_ok_unfold st he, if_pos href]

theorem validatedStep_noform {w : Oracle} {l refId : String}
    {docs : List (String × String)} (st : VState)
    (he : w.extractDocs (toDocumentsUrl l) = ROut.ok (refId, docs))
    (href : ¬ (check_reference st.store refId).isSome = true)
    (hform : alookup docs "application_form" = none) :
    validatedStep w st l = ROut.ok st := by
  rw [validatedStep_ok_unfold st he, if_neg href, hform]

theorem validatedStep_form_unfold {w : Oracle} {l refId formLink : String}
    {docs : List (String × String)} (st : VState)
    (he : w.extractDocs (toDocumentsUrl l) = ROut.ok (refId, docs))
    (href : ¬ (check_reference st.store refId).isSome = true)
    (hform : alookup docs "application_form" = some formLink) :
    validatedStep w st l =
      match w.getDocument (fullUrl l) with
      | ROut.panicked m => ROut.panicked m
      | ROut.err _ => ROut.ok st
      | ROut.ok d =>
        match w.upload "application_form" formLink with
        | ROut.panicked m => ROut.panicked m
        | ROut.err _ => ROut.ok st
        | ROut.ok _ =>
          ROut.ok ⟨st.store ++ [⟨COUNTY, d.reference, false⟩],
            st.uploads + 1, st.inserts + 1⟩ := by
  rw [validatedStep_ok_unfold st he, if_neg href, hform]

theorem validatedStep_insert {w : Oracle} {l refId formLink : String}
    {docs : List (String × String)} {d : CaseData} (st : VState)
    (he : w.extractDocs (toDocumentsUrl l) = ROut.ok (refId, docs))
    (href : ¬ (check_reference st.store refId).isSome = true)
    (hform : alookup docs "application_form" = some formLink)
    (hgd : w.getDocument (fullUrl l) = ROut.ok d)
    (hup : w.upload "application_form" formLink = ROut.ok ()) :
    validatedStep w st l =
      ROut.ok ⟨st.store ++ [⟨COUNTY, d.reference, false⟩],
        st.uploads + 1, st.inserts + 1⟩ := by
  rw [validatedStep_form_unfold st he href hform, hgd, hup]

theorem validatedPass_cons_ok {w : Oracle} {st st2 : VState} {l : String}
    (ls : List String) (h : validatedStep w st l = ROut.ok st2) :
    validatedPass w st (l :: ls) = validatedPass w st2 ls := by
  conv_lhs => unfold validatedPass
  rw [h]

theorem check_reference_isSome (store : List SRec) (ref : String) :
    (check_reference store ref).isSome = true ↔ 0 < refCount store ref := by
  unfold check_reference refCount
  rw [List.find?_isSome]
  rw [← List.countP_eq_length_filter]
  rw [List.countP_pos]

theorem refCount_append_one (store : List SRec) (x : String) (b : Bool)
    (ref : String) :
    refCount (store ++ [⟨COUNTY, x, b⟩]) ref =
      refCount store ref + (if x = ref then 1 else 0) := by
  unfold refCount
  rw [List.filter_append, List.length_append]
  congr 1
  by_cases h : x = ref
  · simp [refMatches, COUNTY, h]
  · simp [refMatches, COUNTY, h]

theorem qualifyingRef_nil {w : Oracle} {ref : String} :
    ¬ qualifyingRef w [] ref := by
  rintro ⟨l, hl, -⟩
  exact absurd hl (List.not_mem_nil l)

theorem qualifyingRef_cons {w : Oracle} {l : String} {ls : List String}
    {ref : String} :
    qualifyingRef w (l :: ls) ref ↔
      (∃ docs, w.extractDocs (toDocumentsUrl l) = ROut.ok (ref, docs) ∧
        (alookup docs "application_form").isSome) ∨
      qualifyingRef w ls ref := by
  unfold qualifyingRef
  constructor
  · rintro ⟨l2, hl2, docs, hdocs, hform⟩
    rcases List.mem_cons.mp hl2 with h | h
    · subst h
      exact Or.inl ⟨docs, hdocs, hform⟩
    · exact Or.inr ⟨l2, h, docs, hdocs, hform⟩
  · rintro (⟨docs, hdocs, hform⟩ | ⟨l2, h, docs, hdocs, hform⟩)
    · exact ⟨l, List.mem_cons_self l ls, docs, hdocs, hform⟩
    · exact ⟨l2, List.mem_cons_of_mem l h, docs, hdocs, hform⟩

theorem validatedPass_char {w : Oracle} (hff : failFree w) (hag : refsAgree w) :
    ∀ (links : List String) (st : VState),
      (∀ ref, refCount st.store ref ≤ 1) →
      ∃ st2 : VState, validatedPass w st links = ROut.ok st2 ∧
        (∀ ref, refCount st.store ref = 0 → qualifyingRef w links ref →
          refCount st2.store ref = 1) ∧
        (∀ ref, ¬ (refCount st.store ref = 0 ∧ qualifyingRef w links ref) →
          refCount st2.store ref = refCount st.store ref) ∧
        (∀ ref, refCount st2.store ref ≤ 1) := by
  intro links
  induction links with
  | nil =>
    intro st hle
    exact ⟨st, rfl, fun ref _ hq => absurd hq qualifyingRef_nil,
      fun ref _ => rfl, hle⟩
  | cons l ls ih =>
    intro st hle
    obtain ⟨r0, he⟩ := hff.1 (toDocumentsUrl l)
    obtain ⟨refId, docs⟩ := r0
    obtain ⟨d, hd⟩ := hff.2.1 (fullUrl l)
    by_cases href : (check_reference st.store refId).isSome = true
    · obtain ⟨st2, hrun, h1, h2, hle2⟩ := ih st hle
      refine ⟨st2, (validatedPass_cons_ok ls (validatedStep_skip st he href)).trans hrun,
        ?_, ?_, hle2⟩
      · intro ref h0 hq
        rcases qualifyingRef_cons.mp hq with ⟨docs2, hdocs2, -⟩ | hq2
        · have hinj := ROut.ok.inj (he.symm.trans hdocs2)
          have hrid : refId = ref := (Prod.mk.injEq _ _ _ _ ▸ hinj).1
          have hpos := (check_reference_isSome st.store refId).mp href
          rw [hrid] at hpos
          omega
        · exact h1 ref h0 hq2
      · intro ref hn
        refine h2 ref ?_
        rintro ⟨h0, hq⟩
        exact hn ⟨h0, qualifyingRef_cons.mpr (Or.inr hq)⟩
    · cases hform : alookup docs "application_form" with
      | none =>
        obtain ⟨st2, hrun, h1, h2, hle2⟩ := ih st hle
        refine ⟨st2,
          (validatedPass_cons_ok ls (validatedStep_noform st he href hform)).trans hrun,
          ?_, ?_, hle2⟩
        · intro ref h0 hq
          rcases qualifyingRef_cons.mp hq with ⟨docs2, hdocs2, hform2⟩ | hq2
          · have hinj := ROut.ok.inj (he.symm.trans hdocs2)
            have hdocs : docs = docs2 := (Prod.mk.injEq _ _ _ _ ▸ hinj).2
            rw [← hdocs, hform] at hform2
            exact absurd hform2 (by simp)
          · exact h1 ref h0 hq2
        · intro ref hn
          refine h2 ref ?_
          rintro ⟨h0, hq⟩
          exact hn ⟨h0, qualifyingRef_cons.mpr (Or.inr hq)⟩
      | some formLink =>
        have hup := hff.2.2 "application_form" formLink
        have hrefeq : d.reference = refId := hag l refId docs d he hd
        have h0refId : refCount st.store refId = 0 := by
          have hnpos : ¬ 0 < refCount st.store refId :=
            fun hpos => href ((check_reference_isSome st.store refId).mpr hpos)
          omega
        have hcount : ∀ ref,
            refCount (st.store ++ [⟨COUNTY, d.reference, false⟩]) ref =
              refCount st.store ref + (if refId = ref then 1 else 0) := by
          intro ref
          rw [refCount_append_one, hrefeq]
        have hle2 : ∀ ref,
            refCount (st.store ++ [⟨COUNTY, d.reference, false⟩]) ref ≤ 1 := by
          intro ref
          rw [hcount ref]
          by_cases hr : refId = ref
          · rw [if_pos hr, ← hr, h0refId]
          · rw [if_neg hr]
            have := hle ref
            omega
        obtain ⟨st2, hrun, h1, h2, hle3⟩ :=
          ih ⟨st.store ++ [⟨COUNTY, d.reference, false⟩],
            st.uploads + 1, st.inserts + 1⟩ hle2
        refine ⟨st2,
          (validatedPass_cons_ok ls
            (validatedStep_insert st he href hform hd hup)).trans hrun,
          ?_, ?_, hle3⟩
        · intro ref h0 hq
          by_cases hr : refId = ref
          · have hc1 : refCount (st.store ++ [⟨COUNTY, d.reference, false⟩]) ref = 1 := by
              rw [hcount ref, if_pos hr, h0]
            have := h2 ref (by
              rintro ⟨h0b, -⟩
              rw [hc1] at h0b
              exact absurd h0b (by omega))
            rw [this, hc1]
          · have hc0 : refCount (st.store ++ [⟨COUNTY, d.reference, false⟩]) ref =
                refCount st.store ref := by
              rw [hcount ref, if_neg hr]
              omega
            rcases qualifyingRef_cons.mp hq with ⟨docs2, hdocs2, -⟩ | hq2
            · have hinj := ROut.ok.inj (he.symm.trans hdocs2)
              exact absurd (Prod.mk.injEq _ _ _ _ ▸ hinj).1 hr
            · exact h1 ref (hc0.trans h0) hq2
        · intro ref hn
          by_cases hr : refId = ref
          · exfalso
            refine hn ⟨by rw [← hr]; exact h0refId, ?_⟩
            refine qualifyingRef_cons.mpr (Or.inl ⟨docs, ?_, ?_⟩)
            · rw [← hr]
              exact he
            · rw [hform]
              rfl
          · have hc0 : refCount (st.store ++ [⟨COUNTY, d.reference, false⟩]) ref =
                refCount st.store ref := by
              rw [hcount ref, if_neg hr]
              omega
            have := h2 ref (by
              rintro ⟨h0b, hqb⟩
              exact hn ⟨hc0 ▸ h0b, qualifyingRef_cons.mpr (Or.inr hqb)⟩)
            rw [this, hc0]

theorem validatedPass_noop {w : Oracle} (hff : failFree w) :
    ∀ (links : List String) (st : VState),
      (∀ ref, qualifyingRef w links ref → 0 < refCount st.store ref) →
      validatedPass w st links = ROut.ok st := by
  intro links
  induction links with
  | nil => intro st _; rfl
  | cons l ls ih =>
    intro st hq
    obtain ⟨r0, he⟩ := hff.1 (toDocumentsUrl l)
    obtain ⟨refId, docs⟩ := r0
    have htail : ∀ ref, qualifyingRef w ls ref → 0 < refCount st.store ref :=
      fun ref h => hq ref (qualifyingRef_cons.mpr (Or.inr h))
    by_cases href : (check_reference st.store refId).isSome = true
    · exact (validatedPass_cons_ok ls (validatedStep_skip st he href)).trans
        (ih st htail)
    · cases hform : alookup docs "application_form" with
      | none =>
        exact (validatedPass_cons_ok ls
          (validatedStep_noform st he href hform)).trans (ih st htail)
      | some formLink =>
        exfalso
        have hqual : qualifyingRef w (l :: ls) refId :=
          qualifyingRef_cons.mpr (Or.inl ⟨docs, he, by rw [hform]; rfl⟩)
        exact href ((check_reference_isSome st.store refId).mpr (hq refId hqual))

/-- C3 amended: against a failure-free unchanged portal in which, for
every case, the documents-page reference equals the print-preview
reference, the validated pass from an empty store inserts each reference
with a classified application form exactly once (and no other
reference), and running the pass a second time leaves the store
unchanged and performs zero inserts and zero blob uploads — every case
is skipped by the existing-reference check, which runs before any
upload. -/
theorem c3_amended :
    ∀ (w : Oracle) (links : List String), failFree w → refsAgree w →
      ∃ (S1 : List SRec) (u1 i1 : Nat),
        validatedPass w ⟨[], 0, 0⟩ links = ROut.ok ⟨S1, u1, i1⟩ ∧
        (∀ ref, qualifyingRef w links ref → refCount S1 ref = 1) ∧
        (∀ ref, ¬ qualifyingRef w links ref → refCount S1 ref = 0) ∧
        validatedPass w ⟨S1, 0, 0⟩ links = ROut.ok ⟨S1, 0, 0⟩ := by
  intro w links hff hag
  have hempty : ∀ ref : String, refCount ([] : List SRec) ref = 0 := by
    intro ref
    rfl
  obtain ⟨st2, hrun, h1, h2, hle⟩ :=
    validatedPass_char hff hag links ⟨[], 0, 0⟩ (by
      intro ref
      rw [show (VState.mk [] 0 0).store = [] from rfl, hempty ref]
      omega)
  obtain ⟨S1, u1, i1⟩ := st2
  refine ⟨S1, u1, i1, hrun, ?_, ?_, ?_⟩
  · intro ref hq
    exact h1 ref (hempty ref) hq
  · intro ref hq
    have := h2 ref (fun hc => hq hc.2)
    rw [this]
    exact hempty ref
  · refine validatedPass_noop hff links ⟨S1, 0, 0⟩ ?_
    intro ref hq
    have := h1 ref (hempty ref) hq
    rw [show (VState.mk S1 0 0).store = S1 from rfl, this]
    omega

/-- C3 witness: on a failure-free one-case portal whose two reference
extractions agree, the amended idempotence statement holds as applied. -/
theorem c3_amended_witness :
    ∃ (S1 : List SRec) (u1 i1 : Nat),
      validatedPass agreeOracle ⟨[], 0, 0⟩ ["L1"] = ROut.ok ⟨S1, u1, i1⟩ ∧
      (∀ ref, qualifyingRef agreeOracle ["L1"] ref → refCount S1 ref = 1) ∧
      (∀ ref, ¬ qualifyingRef agreeOracle ["L1"] ref → refCount S1 ref = 0) ∧
      validatedPass agreeOracle ⟨S1, 0, 0⟩ ["L1"] = ROut.ok ⟨S1, 0, 0⟩ := by
  refine c3_amended agreeOracle ["L1"] ⟨?_, ?_, ?_⟩ ?_
  · intro u
    exact ⟨("R1", [("application_form", "/f")]), rfl⟩
  · intro u
    exact ⟨⟨"R1"⟩, rfl⟩
  · intro t u
    rfl
  · intro l rid docs d h1 h2
    have h1b : ROut.ok (("R1" : String), [(("application_form" : String), ("/f" : String))]) =
        ROut.ok (rid, docs) := h1
    have h2b : ROut.ok (CaseData.mk "R1") = ROut.ok d := h2
    have h1c := ROut.ok.inj h1b
    have h2c := ROut.ok.inj h2b
    rw [← h2c]
    show "R1" = rid
    exact (Prod.mk.injEq _ _ _ _ ▸ h1c).1

/-- C3 counterexample: on a failure-free portal whose documents page
shows reference "R1" while the print preview stores reference "R0", the
first validated run from the empty store inserts one record (stored
under "R0") with one upload, and the second run — far from performing
zero inserts and zero uploads — uploads and inserts again, duplicating
the record: the claim fails as stated for this portal state. -/
theorem c3_counterexample :
    validatedPass mismatchOracle ⟨[], 0, 0⟩ ["L1"] =
      ROut.ok ⟨[⟨COUNTY, "R0", false⟩], 1, 1⟩ ∧
    validatedPass mismatchOracle ⟨[⟨COUNTY, "R0", false⟩], 0, 0⟩ ["L1"] =
      ROut.ok ⟨[⟨COUNTY, "R0", false⟩, ⟨COUNTY, "R0", false⟩], 1, 1⟩ := by
  constructor
  · decide
  · decide
